import Mathlib

/-!
# Verification of the SDMX-ML 2.1 reader core

A shallow embedding of the parts of `sdmx/reader/sdmxml.py` and `sdmx/urn.py`
relevant to the claims under study: the working stack and its operations
(`push`, `get`, `pop_all`, `stash`/`unstash`), the finalization check of
`Reader.read_message`, the dispatch step, the `Reference` constructor and
`Reader.resolve`, the URN codec, the `str:ContentConstraint` role
normalization, and the item-scheme flattening/deduplication.

The class hierarchy, the `PACKAGE` table, `model.get_class` /
`model.parent_class`, and `Item.__iter__` live in `sdmx/model.py`, which is
not part of the sources under study; they are modelled from the spec where
needed, as their doc comments state.
-/

namespace SdmxSpec

/-- Modelled from the spec: the SDMX information-model classes that the
reader manipulates (abstract chain Annotable → Identifiable → Nameable →
Versionable → Maintainable plus the concrete artifacts of §3.1).  The Python
code uses runtime class objects; here each class is a constructor. -/
inductive SDMXClass where
  | AnnotableArtefact
  | IdentifiableArtefact
  | NameableArtefact
  | VersionableArtefact
  | MaintainableArtefact
  | Item
  | ItemScheme
  | Agency
  | Code
  | Concept
  | Category
  | DataProvider
  | OrganisationScheme
  | AgencyScheme
  | Codelist
  | ConceptScheme
  | CategoryScheme
  | DataProviderScheme
  | Component
  | DimensionComponent
  | Dimension
  | TimeDimension
  | MeasureDimension
  | PrimaryMeasure
  | DataAttribute
  | ComponentList
  | DimensionDescriptor
  | AttributeDescriptor
  | MeasureDescriptor
  | GroupDimensionDescriptor
  | ConstrainableArtefact
  | DataStructureDefinition
  | StructureUsage
  | DataflowDefinition
  | ContentConstraint
  | Categorisation
  | ProvisionAgreement
  | Key
  | AnnotationCls
  | Message
  | DataMessage
  | StructureMessage
  | ErrorMessage
  deriving DecidableEq, Repr

namespace SDMXClass

/-- Modelled from the spec: the proper superclasses of each class (§3.1
abstract chain and the concrete artifact listing).  `chainOf c` does not
contain `c` itself. -/
def chainOf : SDMXClass → List SDMXClass
  | .AnnotableArtefact => []
  | .IdentifiableArtefact => [.AnnotableArtefact]
  | .NameableArtefact => [.IdentifiableArtefact, .AnnotableArtefact]
  | .VersionableArtefact => [.NameableArtefact, .IdentifiableArtefact, .AnnotableArtefact]
  | .MaintainableArtefact =>
      [.VersionableArtefact, .NameableArtefact, .IdentifiableArtefact, .AnnotableArtefact]
  | .Item => [.NameableArtefact, .IdentifiableArtefact, .AnnotableArtefact]
  | .ItemScheme =>
      [.MaintainableArtefact, .VersionableArtefact, .NameableArtefact, .IdentifiableArtefact,
       .AnnotableArtefact]
  | .Agency => [.Item, .NameableArtefact, .IdentifiableArtefact, .AnnotableArtefact]
  | .Code => [.Item, .NameableArtefact, .IdentifiableArtefact, .AnnotableArtefact]
  | .Concept => [.Item, .NameableArtefact, .IdentifiableArtefact, .AnnotableArtefact]
  | .Category => [.Item, .NameableArtefact, .IdentifiableArtefact, .AnnotableArtefact]
  | .DataProvider => [.Item, .NameableArtefact, .IdentifiableArtefact, .AnnotableArtefact]
  | .OrganisationScheme =>
      [.ItemScheme, .MaintainableArtefact, .VersionableArtefact, .NameableArtefact,
       .IdentifiableArtefact, .AnnotableArtefact]
  | .AgencyScheme =>
      [.OrganisationScheme, .ItemScheme, .MaintainableArtefact, .VersionableArtefact,
       .NameableArtefact, .IdentifiableArtefact, .AnnotableArtefact]
  | .Codelist =>
      [.ItemScheme, .MaintainableArtefact, .VersionableArtefact, .NameableArtefact,
       .IdentifiableArtefact, .AnnotableArtefact]
  | .ConceptScheme =>
      [.ItemScheme, .MaintainableArtefact, .VersionableArtefact, .NameableArtefact,
       .IdentifiableArtefact, .AnnotableArtefact]
  | .CategoryScheme =>
      [.ItemScheme, .MaintainableArtefact, .VersionableArtefact, .NameableArtefact,
       .IdentifiableArtefact, .AnnotableArtefact]
  | .DataProviderScheme =>
      [.OrganisationScheme, .ItemScheme, .MaintainableArtefact, .VersionableArtefact,
       .NameableArtefact, .IdentifiableArtefact, .AnnotableArtefact]
  | .Component => [.IdentifiableArtefact, .AnnotableArtefact]
  | .DimensionComponent => [.Component, .IdentifiableArtefact, .AnnotableArtefact]
  | .Dimension => [.DimensionComponent, .Component, .IdentifiableArtefact, .AnnotableArtefact]
  | .TimeDimension =>
      [.Dimension, .DimensionComponent, .Component, .IdentifiableArtefact, .AnnotableArtefact]
  | .MeasureDimension =>
      [.Dimension, .DimensionComponent, .Component, .IdentifiableArtefact, .AnnotableArtefact]
  | .PrimaryMeasure => [.Component, .IdentifiableArtefact, .AnnotableArtefact]
  | .DataAttribute => [.Component, .IdentifiableArtefact, .AnnotableArtefact]
  | .ComponentList => [.IdentifiableArtefact, .AnnotableArtefact]
  | .DimensionDescriptor => [.ComponentList, .IdentifiableArtefact, .AnnotableArtefact]
  | .AttributeDescriptor => [.ComponentList, .IdentifiableArtefact, .AnnotableArtefact]
  | .MeasureDescriptor => [.ComponentList, .IdentifiableArtefact, .AnnotableArtefact]
  | .GroupDimensionDescriptor =>
      [.DimensionDescriptor, .ComponentList, .IdentifiableArtefact, .AnnotableArtefact]
  | .ConstrainableArtefact => []
  | .DataStructureDefinition =>
      [.MaintainableArtefact, .VersionableArtefact, .NameableArtefact, .IdentifiableArtefact,
       .AnnotableArtefact, .ConstrainableArtefact]
  | .StructureUsage =>
      [.MaintainableArtefact, .VersionableArtefact, .NameableArtefact, .IdentifiableArtefact,
       .AnnotableArtefact]
  | .DataflowDefinition =>
      [.StructureUsage, .MaintainableArtefact, .VersionableArtefact, .NameableArtefact,
       .IdentifiableArtefact, .AnnotableArtefact, .ConstrainableArtefact]
  | .ContentConstraint =>
      [.MaintainableArtefact, .VersionableArtefact, .NameableArtefact, .IdentifiableArtefact,
       .AnnotableArtefact]
  | .Categorisation =>
      [.MaintainableArtefact, .VersionableArtefact, .NameableArtefact, .IdentifiableArtefact,
       .AnnotableArtefact]
  | .ProvisionAgreement =>
      [.MaintainableArtefact, .VersionableArtefact, .NameableArtefact, .IdentifiableArtefact,
       .AnnotableArtefact, .ConstrainableArtefact]
  | .Key => []
  | .AnnotationCls => []
  | .Message => []
  | .DataMessage => [.Message]
  | .StructureMessage => [.Message]
  | .ErrorMessage => [.Message]

/-- `issubclass(a, b)` of the modelled hierarchy (a class is a subclass of
itself, as in Python). -/
def isSubclassOf (a b : SDMXClass) : Bool :=
  a == b || (chainOf a).contains b

example : SDMXClass.isSubclassOf .Codelist .MaintainableArtefact = true := by decide
example : SDMXClass.isSubclassOf .Code .MaintainableArtefact = false := by decide
example : SDMXClass.isSubclassOf .DataMessage .Message = true := by decide

/-- The Python name of each modelled class (`cls.__name__`). -/
def clsName : SDMXClass → String
  | .AnnotableArtefact => "AnnotableArtefact"
  | .IdentifiableArtefact => "IdentifiableArtefact"
  | .NameableArtefact => "NameableArtefact"
  | .VersionableArtefact => "VersionableArtefact"
  | .MaintainableArtefact => "MaintainableArtefact"
  | .Item => "Item"
  | .ItemScheme => "ItemScheme"
  | .Agency => "Agency"
  | .Code => "Code"
  | .Concept => "Concept"
  | .Category => "Category"
  | .DataProvider => "DataProvider"
  | .OrganisationScheme => "OrganisationScheme"
  | .AgencyScheme => "AgencyScheme"
  | .Codelist => "Codelist"
  | .ConceptScheme => "ConceptScheme"
  | .CategoryScheme => "CategoryScheme"
  | .DataProviderScheme => "DataProviderScheme"
  | .Component => "Component"
  | .DimensionComponent => "DimensionComponent"
  | .Dimension => "Dimension"
  | .TimeDimension => "TimeDimension"
  | .MeasureDimension => "MeasureDimension"
  | .PrimaryMeasure => "PrimaryMeasure"
  | .DataAttribute => "DataAttribute"
  | .ComponentList => "ComponentList"
  | .DimensionDescriptor => "DimensionDescriptor"
  | .AttributeDescriptor => "AttributeDescriptor"
  | .MeasureDescriptor => "MeasureDescriptor"
  | .GroupDimensionDescriptor => "GroupDimensionDescriptor"
  | .ConstrainableArtefact => "ConstrainableArtefact"
  | .DataStructureDefinition => "DataStructureDefinition"
  | .StructureUsage => "StructureUsage"
  | .DataflowDefinition => "DataflowDefinition"
  | .ContentConstraint => "ContentConstraint"
  | .Categorisation => "Categorisation"
  | .ProvisionAgreement => "ProvisionAgreement"
  | .Key => "Key"
  | .AnnotationCls => "Annotation"
  | .Message => "Message"
  | .DataMessage => "DataMessage"
  | .StructureMessage => "StructureMessage"
  | .ErrorMessage => "ErrorMessage"

/-- All modelled classes, for name lookup. -/
def allClasses : List SDMXClass :=
  [.AnnotableArtefact, .IdentifiableArtefact, .NameableArtefact, .VersionableArtefact,
   .MaintainableArtefact, .Item, .ItemScheme, .Agency, .Code, .Concept, .Category,
   .DataProvider, .OrganisationScheme, .AgencyScheme, .Codelist, .ConceptScheme,
   .CategoryScheme, .DataProviderScheme, .Component, .DimensionComponent, .Dimension,
   .TimeDimension, .MeasureDimension, .PrimaryMeasure, .DataAttribute, .ComponentList,
   .DimensionDescriptor, .AttributeDescriptor, .MeasureDescriptor,
   .GroupDimensionDescriptor, .ConstrainableArtefact, .DataStructureDefinition,
   .StructureUsage, .DataflowDefinition, .ContentConstraint, .Categorisation,
   .ProvisionAgreement, .Key, .AnnotationCls, .Message, .DataMessage, .StructureMessage,
   .ErrorMessage]

/-- Modelled from the spec: the `PACKAGE` table of `sdmx/model.py` (not among
the sources), mapping each information-model class to its SDMX package name as
used in URNs (§4.3, §6). -/
def packageOf : SDMXClass → Option String
  | .Codelist => some "codelist"
  | .Code => some "codelist"
  | .ConceptScheme => some "conceptscheme"
  | .Concept => some "conceptscheme"
  | .CategoryScheme => some "categoryscheme"
  | .Category => some "categoryscheme"
  | .Categorisation => some "categoryscheme"
  | .AgencyScheme => some "base"
  | .Agency => some "base"
  | .DataProviderScheme => some "base"
  | .DataProvider => some "base"
  | .OrganisationScheme => some "base"
  | .DataStructureDefinition => some "datastructure"
  | .DataflowDefinition => some "datastructure"
  | .ContentConstraint => some "registry"
  | .ProvisionAgreement => some "registry"
  | _ => none

end SDMXClass

/-- The rename table applied by `get_sdmx_class` (sdmxml.py lines 55-64). -/
def renamed (name : String) : String :=
  if name == "Attribute" then "DataAttribute"
  else if name == "Dataflow" then "DataflowDefinition"
  else if name == "DataStructure" then "DataStructureDefinition"
  else if name == "GroupDimension" then "Dimension"
  else if name == "ObsKey" then "Key"
  else if name == "Receiver" then "Agency"
  else if name == "Sender" then "Agency"
  else if name == "Source" then "Agency"
  else name

/-- Modelled from the spec: `model.get_class(name)` of `sdmx/model.py` (not
among the sources) — resolve an information-model class by name, or fail. -/
def classOfName (s : String) : Option SDMXClass :=
  SDMXClass.allClasses.find? (fun c => SDMXClass.clsName c == s)

/-- `get_sdmx_class` (sdmxml.py lines 50-65) applied to a plain name: rename,
then class lookup. -/
def getSdmxClass (name : String) : Option SDMXClass :=
  classOfName (renamed name)

example : getSdmxClass "Dataflow" = some .DataflowDefinition := by decide
example : getSdmxClass "Code" = some .Code := by decide

/-! ## URN codec (`sdmx/urn.py`) -/

/-- The named groups produced by `urn.match` (the `groupdict()` of the `URN`
regular expression, urn.py lines 7-11). -/
structure UrnGroups where
  package : String
  cls : String
  agency : Option String
  id : String
  version : Option String
  item_id : Option String
  deriving DecidableEq, Repr

/-- Consume an exact literal from the front of a character list. -/
def dropLit : List Char → List Char → Option (List Char)
  | [], l => some l
  | _ :: _, [] => none
  | p :: ps, c :: cs => if p == c then dropLit ps cs else none

/-! The `URN` regular expression of urn.py lines 7-11, as a deterministic
matcher on character lists (`urnMatchL` below, one stage function per group).
Each step is the forced behavior of the corresponding greedy group:
`urn:sdmx:org\.sdmx\.infomodel\.` literal; `(?P<package>[^\.]*)\.`;
`(?P<class>[^=]*)=`; optional `((?P<agency>[^:]*):)?` which participates
exactly when a `:` remains (every later group can match empty);
`(?P<id>[^\(\.]*)`; optional `(\((?P<version>[\d\.]*)\))?` which participates
exactly when a `(` follows and the maximal digits-and-dots run is closed by
`)`; optional `(\.(?P<item_id>.*))?`.  `re.match` anchors at the start only,
so trailing input is allowed. -/
/-- Stage of `urnMatchL` after the optional version group: only the optional
`(\.(?P<item_id>.*))?` remains. -/
def urnTail6 (pkg kls : List Char) (agency : Option String) (idv : List Char)
    (ver : Option String) (r6 : List Char) : Option UrnGroups :=
  let item : Option String :=
    match r6 with
    | '.' :: rest => some (String.mk rest)
    | _ => none
  some ⟨String.mk pkg, String.mk kls, agency, String.mk idv, ver, item⟩

/-- Stage of `urnMatchL` at the optional `(\((?P<version>[\d\.]*)\))?` group:
it participates exactly when a `(` follows and the maximal digits-and-dots run
after it is closed by `)`. -/
def urnTail5 (pkg kls : List Char) (agency : Option String) (idv : List Char)
    (r5 : List Char) : Option UrnGroups :=
  match r5 with
  | '(' :: rest =>
    match rest.dropWhile (fun c => c.isDigit || c == '.') with
    | ')' :: r7 =>
      urnTail6 pkg kls agency idv
        (some (String.mk (rest.takeWhile (fun c => c.isDigit || c == '.')))) r7
    | _ => urnTail6 pkg kls agency idv none r5
  | _ => urnTail6 pkg kls agency idv none r5

/-- Stage of `urnMatchL` at the `(?P<id>[^\(\.]*)` group. -/
def urnTail4 (pkg kls : List Char) (agency : Option String) (r4 : List Char) :
    Option UrnGroups :=
  urnTail5 pkg kls agency (r4.takeWhile (fun c => c != '(' && c != '.'))
    (r4.dropWhile (fun c => c != '(' && c != '.'))

/-- Stage of `urnMatchL` at the optional `((?P<agency>[^:]*):)?` group: it
participates exactly when a `:` remains (every later group can match empty). -/
def urnTail3 (pkg kls : List Char) (r3 : List Char) : Option UrnGroups :=
  if r3.contains ':' then
    urnTail4 pkg kls (some (String.mk (r3.takeWhile (· != ':'))))
      ((r3.dropWhile (· != ':')).tail)
  else
    urnTail4 pkg kls none r3

/-- Stage of `urnMatchL` at the `(?P<class>[^=]*)=` group. -/
def urnTail2 (pkg : List Char) (r2 : List Char) : Option UrnGroups :=
  match r2.dropWhile (· != '=') with
  | '=' :: r3 => urnTail3 pkg (r2.takeWhile (· != '=')) r3
  | _ => none

/-- Stage of `urnMatchL` at the `(?P<package>[^\.]*)\.` group. -/
def urnTail1 (r1 : List Char) : Option UrnGroups :=
  match r1.dropWhile (· != '.') with
  | '.' :: r2 => urnTail2 (r1.takeWhile (· != '.')) r2
  | _ => none

def urnMatchL (l : List Char) : Option UrnGroups :=
  match dropLit "urn:sdmx:org.sdmx.infomodel.".data l with
  | none => none
  | some r1 => urnTail1 r1

/-- `urn.match` — decode a URN string into its named groups, or fail (a
non-matching string makes `URN.match(...)` return `None` and `.groupdict()`
raise). -/
def urnMatch (s : String) : Option UrnGroups := urnMatchL s.data

/-- The `_BASE` format string of urn.py lines 13-16. -/
def urnBase (package cls agencyId objId version : String) : String :=
  "urn:sdmx:org.sdmx.infomodel." ++ package ++ "." ++ cls ++ "=" ++ agencyId ++ ":"
    ++ objId ++ "(" ++ version ++ ")"

/-- A maintainable object as consumed by `urn.make`: its class, its
maintainer's id, its own id, and its version. -/
structure MObj where
  cls : SDMXClass
  maintainerId : String
  id : String
  version : String
  deriving DecidableEq, Repr

/-- `urn.make` (urn.py lines 19-20): format `_BASE` with the object's fields
and `PACKAGE[obj.__class__]`; fails (KeyError) when the class has no entry in
the `PACKAGE` table. -/
def urnMake (o : MObj) : Option String :=
  (SDMXClass.packageOf o.cls).map fun p =>
    urnBase p (SDMXClass.clsName o.cls) o.maintainerId o.id o.version

example :
    urnMatch "urn:sdmx:org.sdmx.infomodel.codelist.Code=AG:CL(1.0).C1"
      = some ⟨"codelist", "Code", some "AG", "CL", some "1.0", some "C1"⟩ := by decide

example :
    urnMake ⟨.Codelist, "AG", "CL", "1.0"⟩
      = some "urn:sdmx:org.sdmx.infomodel.codelist.Codelist=AG:CL(1.0)" := by decide

example :
    urnMatch "urn:sdmx:org.sdmx.infomodel.codelist.Codelist=AG:CL(1.0)"
      = some ⟨"codelist", "Codelist", some "AG", "CL", some "1.0", none⟩ := by decide

/-! ### Helper lemmas for the URN round trip -/

theorem dropLit_append (p l : List Char) : dropLit p (p ++ l) = some l := by
  induction p with
  | nil => rfl
  | cons c cs ih => simp [dropLit, ih]

theorem takeWhile_append_cons {p : Char → Bool} {xs : List Char}
    (h : ∀ x ∈ xs, p x = true) {y : Char} (hy : p y = false) (ys : List Char) :
    (xs ++ y :: ys).takeWhile p = xs := by
  induction xs with
  | nil => simp [List.takeWhile, hy]
  | cons a as ih =>
    have ha : p a = true := h a (by simp)
    simp only [List.cons_append, List.takeWhile_cons, ha, if_true]
    rw [ih (fun x hx => h x (by simp [hx]))]

theorem dropWhile_append_cons {p : Char → Bool} {xs : List Char}
    (h : ∀ x ∈ xs, p x = true) {y : Char} (hy : p y = false) (ys : List Char) :
    (xs ++ y :: ys).dropWhile p = y :: ys := by
  induction xs with
  | nil => simp [List.dropWhile, hy]
  | cons a as ih =>
    have ha : p a = true := h a (by simp)
    simp only [List.cons_append, List.dropWhile_cons, ha, if_true]
    exact ih (fun x hx => h x (by simp [hx]))

theorem contains_append_cons (xs : List Char) (y : Char) (ys : List Char) :
    (xs ++ y :: ys).contains y = true := by
  induction xs with
  | nil => simp [List.contains_cons]
  | cons a as ih => simp [List.contains_cons, ih]

theorem urnMatchL_lit (l : List Char) :
    urnMatchL ("urn:sdmx:org.sdmx.infomodel.".data ++ l) = urnTail1 l := by
  unfold urnMatchL
  rw [dropLit_append]

theorem urnTail1_step {P : List Char} (hP : ∀ c ∈ P, (c != '.') = true)
    (r2 : List Char) : urnTail1 (P ++ '.' :: r2) = urnTail2 P r2 := by
  unfold urnTail1
  rw [dropWhile_append_cons hP (by decide) r2, takeWhile_append_cons hP (by decide) r2]
  rfl

theorem urnTail2_step (pkg : List Char) {K : List Char}
    (hK : ∀ c ∈ K, (c != '=') = true) (r3 : List Char) :
    urnTail2 pkg (K ++ '=' :: r3) = urnTail3 pkg K r3 := by
  unfold urnTail2
  rw [dropWhile_append_cons hK (by decide) r3, takeWhile_append_cons hK (by decide) r3]
  rfl

theorem urnTail3_step (pkg kls : List Char) {A : List Char}
    (hA : ∀ c ∈ A, (c != ':') = true) (r4 : List Char) :
    urnTail3 pkg kls (A ++ ':' :: r4) = urnTail4 pkg kls (some (String.mk A)) r4 := by
  unfold urnTail3
  rw [contains_append_cons A ':' r4, takeWhile_append_cons hA (by decide) r4,
    dropWhile_append_cons hA (by decide) r4]
  simp

theorem urnTail4_step (pkg kls : List Char) (ag : Option String) {I : List Char}
    (hI : ∀ c ∈ I, (c != '(' && c != '.') = true) (rest : List Char) :
    urnTail4 pkg kls ag (I ++ '(' :: rest) = urnTail5 pkg kls ag I ('(' :: rest) := by
  unfold urnTail4
  rw [takeWhile_append_cons hI (by decide) rest, dropWhile_append_cons hI (by decide) rest]

theorem urnTail5_step (pkg kls : List Char) (ag : Option String) (idv : List Char)
    {V : List Char} (hV : ∀ c ∈ V, (c.isDigit || c == '.') = true) :
    urnTail5 pkg kls ag idv ('(' :: (V ++ [')']))
      = urnTail6 pkg kls ag idv (some (String.mk V)) [] := by
  simp only [urnTail5]
  rw [show (V ++ [')'] : List Char) = V ++ ')' :: [] from rfl]
  rw [dropWhile_append_cons hV (by decide) [], takeWhile_append_cons hV (by decide) []]
  rfl

/-- Core of the round trip: the matcher applied to a fully well-formed
formatted URN recovers every group. -/
theorem urnMatchL_roundtrip (P K A I V : List Char)
    (hP : ∀ c ∈ P, c ≠ '.') (hK : ∀ c ∈ K, c ≠ '=') (hA : ∀ c ∈ A, c ≠ ':')
    (hI : ∀ c ∈ I, c ≠ '(' ∧ c ≠ '.') (hV : ∀ c ∈ V, c.isDigit ∨ c = '.') :
    urnMatchL ("urn:sdmx:org.sdmx.infomodel.".data
        ++ (P ++ ('.' :: (K ++ ('=' :: (A ++ (':' :: (I ++ ('(' :: (V ++ [')']))))))))))
      = some ⟨String.mk P, String.mk K, some (String.mk A), String.mk I,
              some (String.mk V), none⟩ := by
  have hP' : ∀ c ∈ P, (c != '.') = true := by
    intro c hc; simpa using hP c hc
  have hK' : ∀ c ∈ K, (c != '=') = true := by
    intro c hc; simpa using hK c hc
  have hA' : ∀ c ∈ A, (c != ':') = true := by
    intro c hc; simpa using hA c hc
  have hI' : ∀ c ∈ I, ((c != '(') && (c != '.')) = true := by
    intro c hc
    rcases hI c hc with ⟨h1, h2⟩
    simp [h1, h2]
  have hV' : ∀ c ∈ V, (c.isDigit || (c == '.')) = true := by
    intro c hc
    rcases hV c hc with h | h
    · simp [h]
    · simp [h]
  rw [urnMatchL_lit, urnTail1_step hP', urnTail2_step P hK', urnTail3_step P K hA',
    urnTail4_step P K _ hI', urnTail5_step P K _ I hV']
  rfl

theorem sdata_append (a b : String) : (a ++ b).data = a.data ++ b.data := by
  cases a
  cases b
  rfl

/-- Every `PACKAGE` entry is well formed: the package name is dot-free and
the class name contains no `=`, `.`, `(` or `:`. -/
theorem packageOf_wf (c : SDMXClass) (p : String)
    (hp : SDMXClass.packageOf c = some p) :
    (∀ ch ∈ p.data, ch ≠ '.') ∧
      (∀ ch ∈ (SDMXClass.clsName c).data, ch ≠ '=') := by
  cases c <;> simp only [SDMXClass.packageOf, Option.some.injEq,
    reduceCtorEq] at hp <;> subst hp <;> decide

/-- C5 (amended): for every object whose class is in the `PACKAGE` table,
with maintainer id A containing no `:` character, id I containing no `.`,
`(` or `:` characters, and version V consisting of digits and dots,
`match(make(obj))` succeeds and returns a mapping in which `package` is the
`PACKAGE` entry of the class, `class` is the class name, `agency` is A,
`id` is I, `version` is V, and `item_id` is null. -/
theorem claim_C5_urn_roundtrip (o : MObj) (p : String)
    (hp : SDMXClass.packageOf o.cls = some p)
    (hA : ∀ c ∈ o.maintainerId.data, c ≠ ':')
    (hI : ∀ c ∈ o.id.data, c ≠ '.' ∧ c ≠ '(' ∧ c ≠ ':')
    (hV : ∀ c ∈ o.version.data, c.isDigit ∨ c = '.') :
    urnMake o
        = some (urnBase p (SDMXClass.clsName o.cls) o.maintainerId o.id o.version) ∧
      urnMatch (urnBase p (SDMXClass.clsName o.cls) o.maintainerId o.id o.version)
        = some ⟨p, SDMXClass.clsName o.cls, some o.maintainerId, o.id,
                some o.version, none⟩ := by
  obtain ⟨hP, hK⟩ := packageOf_wf o.cls p hp
  constructor
  · simp [urnMake, hp]
  · have hdata : (urnBase p (SDMXClass.clsName o.cls) o.maintainerId o.id
        o.version).data
        = "urn:sdmx:org.sdmx.infomodel.".data
          ++ (p.data ++ ('.' :: ((SDMXClass.clsName o.cls).data
          ++ ('=' :: (o.maintainerId.data ++ (':' :: (o.id.data
          ++ ('(' :: (o.version.data ++ [')']))))))))) := by
      simp only [urnBase, sdata_append, List.append_assoc,
        show ("." : String).data = ['.'] from rfl,
        show ("=" : String).data = ['='] from rfl,
        show (":" : String).data = [':'] from rfl,
        show ("(" : String).data = ['('] from rfl,
        show (")" : String).data = [')'] from rfl,
        List.singleton_append, List.cons_append, List.nil_append]
    show urnMatchL _ = _
    rw [hdata]
    exact urnMatchL_roundtrip p.data (SDMXClass.clsName o.cls).data
      o.maintainerId.data o.id.data o.version.data hP hK hA
      (fun c hc => ⟨(hI c hc).2.1, (hI c hc).1⟩) hV

theorem claim_C5_urn_roundtrip_witness :
    urnMake ⟨.Codelist, "AG", "CL", "1.0"⟩
        = some (urnBase "codelist" "Codelist" "AG" "CL" "1.0") ∧
      urnMatch (urnBase "codelist" "Codelist" "AG" "CL" "1.0")
        = some ⟨"codelist", "Codelist", some "AG", "CL", some "1.0", none⟩ :=
  claim_C5_urn_roundtrip ⟨.Codelist, "AG", "CL", "1.0"⟩ "codelist"
    (by decide) (by decide) (by decide) (by decide)

/-- C5 counterexample: the claim places no restriction on the maintainer id,
but for maintainer id `"a:b"` (class Codelist, id `"CL"`, version `"1.0"`,
all satisfying the claim's stated restrictions) the decoded `agency` group is
`"a"` and the decoded `id` group is `"b:CL"` — not `"a:b"` and `"CL"` as the
claim asserts, because the regex consumes only up to the first `:`. -/
theorem claim_C5_counterexample :
    SDMXClass.packageOf .Codelist = some "codelist" ∧
      urnMake ⟨.Codelist, "a:b", "CL", "1.0"⟩
        = some "urn:sdmx:org.sdmx.infomodel.codelist.Codelist=a:b:CL(1.0)" ∧
      urnMatch "urn:sdmx:org.sdmx.infomodel.codelist.Codelist=a:b:CL(1.0)"
        = some ⟨"codelist", "Codelist", some "a", "b:CL", some "1.0", none⟩ ∧
      (some "a" : Option String) ≠ some "a:b" ∧ ("b:CL" : String) ≠ "CL" := by
  decide


/-! ## ContentConstraint role normalization (`_cc`, sdmxml.py lines 1056-1078) -/

/-- Python `str.lower()` (the relevant inputs are ASCII). -/
def pyLower (s : String) : String := String.mk (s.data.map Char.toLower)

/-- Python `str.replace(old, new)` on character lists: replace every
non-overlapping occurrence of `old`, scanning left to right.  `fuel` bounds
the recursion; it is instantiated with the input length, which suffices for
the non-empty `old` used here. -/
def replaceChars (old new : List Char) : Nat → List Char → List Char
  | _, [] => []
  | 0, l => l
  | fuel + 1, c :: rest =>
    match dropLit old (c :: rest) with
    | some rem => new ++ replaceChars old new fuel rem
    | none => c :: replaceChars old new fuel rest

/-- Python `s.replace(old, new)`. -/
def pyReplace (s old new : String) : String :=
  String.mk (replaceChars old.data new.data s.data.length s.data)

/-- The two members of the `ConstraintRoleType` enum (spec §3.1: `role:
\{allowable|actual\}`). -/
inductive ConstraintRoleType where
  | allowable
  | actual
  deriving DecidableEq, Repr

/-- `ConstraintRoleType[s]`: enum lookup by member name; `none` models the
KeyError raised on an unknown name. -/
def constraintRoleOf (s : String) : Option ConstraintRoleType :=
  if s == "allowable" then some .allowable
  else if s == "actual" then some .actual
  else none

/-- The normalization performed by `_cc` (sdmxml.py line 1058):
`elem.attrib["type"].lower().replace("allowed", "allowable")` — lowercase
FIRST, then replace. -/
def ccRoleString (t : String) : String :=
  pyReplace (pyLower t) "allowed" "allowable"

/-- The role stored on the constructed ContentConstraint, as a function of
the element's `type` attribute (None models the parse failure on an unknown
member name). -/
def ccRole (t : String) : Option ConstraintRoleType :=
  constraintRoleOf (ccRoleString t)

/-- The normalization in the order written in the claim: replace FIRST, then
lowercase. -/
def claimRoleString (t : String) : String :=
  pyLower (pyReplace t "allowed" "allowable")

/-- C6 counterexample: on the canonical SDMX-ML attribute value `"Allowed"`,
the code (lowercase, then replace) stores the role `allowable`, while the
claim's formula (replace, then lowercase) yields the string `"allowed"`,
which is not a `ConstraintRoleType` member at all — so the stored role does
not equal the claim's `ConstraintRoleType[lowercase(replace(type, "allowed",
"allowable"))]`. -/
theorem claim_C6_counterexample :
    ccRoleString "Allowed" = "allowable" ∧
      ccRole "Allowed" = some .allowable ∧
      claimRoleString "Allowed" = "allowed" ∧
      constraintRoleOf (claimRoleString "Allowed") = none ∧
      ccRole "Allowed" ≠ constraintRoleOf (claimRoleString "Allowed") := by
  decide

/-- C6 (amended): for every `<str:ContentConstraint>` element, the role
stored on the constructed ContentConstraint equals the role enum value
obtained from the element's `type` attribute by first LOWERCASING it and
then replacing the substring "allowed" with "allowable", i.e.
`role = ConstraintRoleType[replace(lowercase(type), "allowed", "allowable")]`. -/
theorem claim_C6_role_normalization (t : String) :
    ccRole t = constraintRoleOf (pyReplace (pyLower t) "allowed" "allowable") :=
  rfl

/-! ## ItemScheme flattening (`_itemscheme`, sdmxml.py lines 790-800) -/

/-- An Item as popped off the working stack at the end of an ItemScheme
element: an identifying payload plus the list of child items. -/
inductive ItemT where
  | node : Nat → List ItemT → ItemT

mutual

def ItemT.beq : ItemT → ItemT → Bool
  | .node i cs, .node j ds => i == j && ItemT.beqList cs ds

def ItemT.beqList : List ItemT → List ItemT → Bool
  | [], [] => true
  | a :: as, b :: bs => ItemT.beq a b && ItemT.beqList as bs
  | _, _ => false

end

mutual

theorem ItemT.eq_of_beq : ∀ {a b : ItemT}, ItemT.beq a b = true → a = b
  | .node i cs, .node j ds, h => by
    simp only [ItemT.beq, Bool.and_eq_true, beq_iff_eq] at h
    obtain ⟨h1, h2⟩ := h
    subst h1
    rw [ItemT.eqList_of_beqList h2]

theorem ItemT.eqList_of_beqList : ∀ {as bs : List ItemT},
    ItemT.beqList as bs = true → as = bs
  | [], [], _ => rfl
  | [], _ :: _, h => by simp [ItemT.beqList] at h
  | _ :: _, [], h => by simp [ItemT.beqList] at h
  | a :: as, b :: bs, h => by
    simp only [ItemT.beqList, Bool.and_eq_true] at h
    obtain ⟨h1, h2⟩ := h
    rw [ItemT.eq_of_beq h1, ItemT.eqList_of_beqList h2]

end

mutual

theorem ItemT.beq_refl : ∀ a : ItemT, ItemT.beq a a = true
  | .node i cs => by
    simp only [ItemT.beq, Bool.and_eq_true, beq_iff_eq, eq_self_iff_true, true_and]
    exact ItemT.beqList_refl cs

theorem ItemT.beqList_refl : ∀ as : List ItemT, ItemT.beqList as as = true
  | [] => rfl
  | a :: as => by
    simp only [ItemT.beqList, Bool.and_eq_true]
    exact ⟨ItemT.beq_refl a, ItemT.beqList_refl as⟩

end

instance : DecidableEq ItemT := fun a b =>
  if h : ItemT.beq a b = true then isTrue (ItemT.eq_of_beq h)
  else isFalse (fun he => by subst he; exact h (ItemT.beq_refl a))

mutual

/-- Modelled from the spec: `iter(item)` of `sdmx/model.py` (not among the
sources) yields the item together with all of its descendants ("collect all
items, flatten their descendants", §4.5). -/
def iterItem : ItemT → List ItemT
  | .node i cs => .node i cs :: iterItems cs

/-- `chain(*[iter(item) for item in ...])`: the concatenation of the
`iter` streams of a list of items. -/
def iterItems : List ItemT → List ItemT
  | [] => []
  | t :: ts => iterItem t ++ iterItems ts

end

/-- The deduplication loop of `_itemscheme`:
`seen = dict(); items = [seen.setdefault(i, i) for i in iter_all if i not in
seen]` — keep an element only when it has not been seen, recording it. -/
def dedupAux {α : Type} [DecidableEq α] : List α → List α → List α
  | _, [] => []
  | seen, x :: xs =>
    if x ∈ seen then dedupAux seen xs else x :: dedupAux (x :: seen) xs

/-- The `items` list built by `_itemscheme` from the popped items (these
become the `items` of the Maintainable constructed at the end of the
ItemScheme element). -/
def itemschemeItems (popped : List ItemT) : List ItemT :=
  dedupAux [] (iterItems popped)

/-- Specification-side deduplication: keep exactly the first occurrence of
each distinct element, in order of first occurrence. -/
def keepFirst {α : Type} [DecidableEq α] : List α → List α
  | [] => []
  | x :: xs => x :: (keepFirst xs).filter (fun y => y ≠ x)

theorem dedupAux_eq_filter_keepFirst {α : Type} [DecidableEq α]
    (l : List α) : ∀ seen : List α,
    dedupAux seen l = (keepFirst l).filter (fun y => y ∉ seen) := by
  induction l with
  | nil => intro seen; rfl
  | cons x xs ih =>
    intro seen
    by_cases hx : x ∈ seen
    · simp only [dedupAux, if_pos hx, keepFirst, List.filter_cons,
        decide_eq_true_eq]
      rw [if_neg (by simp [hx])]
      rw [ih seen, List.filter_filter]
      refine List.filter_congr ?_
      intro y _
      by_cases hy : y ∈ seen
      · simp [hy]
      · have : y ≠ x := fun h => hy (h ▸ hx)
        simp [hy, this]
    · simp only [dedupAux, if_neg hx, keepFirst, List.filter_cons,
        decide_eq_true_eq]
      rw [if_pos (by simp [hx])]
      rw [ih (x :: seen), List.filter_filter]
      congr 1
      refine List.filter_congr ?_
      intro y _
      by_cases hy : y ∈ seen
      · have : ¬ y ∈ (x :: seen) → False := fun h => h (by simp [hy])
        simp [hy, List.mem_cons]
      · simp [List.mem_cons, hy, and_comm]

theorem keepFirst_nodup {α : Type} [DecidableEq α] (l : List α) :
    (keepFirst l).Nodup := by
  induction l with
  | nil => exact List.nodup_nil
  | cons x xs ih =>
    refine List.Nodup.cons ?_ (List.Nodup.filter _ ih)
    intro hx
    have := List.of_mem_filter hx
    simp at this

theorem mem_keepFirst {α : Type} [DecidableEq α] (a : α) (l : List α) :
    a ∈ keepFirst l ↔ a ∈ l := by
  induction l with
  | nil => simp [keepFirst]
  | cons x xs ih =>
    by_cases hax : a = x
    · subst hax; simp [keepFirst]
    · simp only [keepFirst, List.mem_cons, List.mem_filter,
        decide_eq_true_eq, ih, hax, false_or]
      constructor
      · rintro ⟨h, _⟩; exact h
      · intro h; exact ⟨h, hax⟩

/-- C9: at the end of every ItemScheme element, the items of the constructed
scheme are the flattening of all popped items together with their
descendants, with duplicates removed so that each distinct item appears
exactly once, in order of first occurrence (`keepFirst` keeps exactly the
first occurrence of each distinct element). -/
theorem claim_C9_itemscheme_items (popped : List ItemT) :
    itemschemeItems popped = keepFirst (iterItems popped) ∧
      (itemschemeItems popped).Nodup ∧
      ∀ x, x ∈ itemschemeItems popped ↔ x ∈ iterItems popped := by
  have he : itemschemeItems popped = keepFirst (iterItems popped) := by
    rw [itemschemeItems, dedupAux_eq_filter_keepFirst]
    refine (List.filter_eq_self.2 ?_)
    intro y _
    simp
  refine ⟨he, ?_, ?_⟩
  · rw [he]; exact keepFirst_nodup _
  · intro x; rw [he]; exact mem_keepFirst x _


/-! ## The working stack (`Reader`, sdmxml.py lines 192-321)

The stack is `defaultdict(list)`: a keyed multimap whose keys are runtime
classes or XML localname strings, with buckets in key-registration order
(Python dicts preserve insertion order) and values in arrival order.  It is
modelled as an association list with unique keys. -/

/-- A key of the working stack: either a runtime class or an XML localname
string (§3.3). -/
inductive SKey where
  | kcls : SDMXClass → SKey
  | kstr : String → SKey
  deriving DecidableEq, Repr

/-- A partially-built object as held on the working stack.  `oid` models
Python object identity (`id(o)`); `id` and `version` are optional exactly as
the Python attributes may be `None`. -/
structure Obj where
  oid : Nat
  cls : SDMXClass
  id : Option String
  version : Option String
  isExternalReference : Bool
  deriving DecidableEq, Repr

abbrev Stack := List (SKey × List Obj)

/-- `matching_class(cls)` (sdmxml.py line 111): true exactly for class keys
that are subclasses of `cls` (string keys are never matched). -/
def keyMatches (c : SDMXClass) : SKey → Bool
  | .kcls k => SDMXClass.isSubclassOf k c
  | .kstr _ => false

/-- The unique-key invariant of a Python dict. -/
def keysNodup (st : Stack) : Prop := (st.map Prod.fst).Nodup

instance (st : Stack) : Decidable (keysNodup st) :=
  inferInstanceAs (Decidable (st.map Prod.fst).Nodup)

/-- The values of bucket `k` (`[]` when the bucket is absent). -/
def bucketValues (st : Stack) (k : SKey) : List Obj :=
  ((st.find? (fun e => e.1 == k)).map Prod.snd).getD []

/-- `push` (sdmxml.py lines 251-263): append the value to the bucket,
registering the bucket at the end when it is new (`defaultdict`). -/
def pushStack : Stack → SKey → Obj → Stack
  | [], k, v => [(k, [v])]
  | e :: rest, k, v =>
    if e.1 == k then (e.1, e.2 ++ [v]) :: rest else e :: pushStack rest k v

/-- `dict.pop(key, [])`: remove the bucket and return its values (`[]` when
absent). -/
def popBucket : Stack → SKey → List Obj × Stack
  | [], _ => ([], [])
  | e :: rest, k =>
    if e.1 == k then (e.2, rest)
    else
      let (vs, st') := popBucket rest k
      (vs, e :: st')

/-- The class branch of `pop_all` (sdmxml.py lines 303-312): walk the keys in
registration order, pop every bucket whose key is a subclass of `c`, and
concatenate the popped values. -/
def popAllCls : Stack → SDMXClass → List Obj × Stack
  | [], _ => ([], [])
  | e :: rest, c =>
    let (vs, st') := popAllCls rest c
    if keyMatches c e.1 then (e.2 ++ vs, st') else (vs, e :: st')

/-- `pop_all` (sdmxml.py lines 294-312): a string key pops exactly that
bucket; a class key pops every subclass-matching bucket.  (The `strict`
parameter of the Python signature is never read in the body.) -/
def popAll (st : Stack) (k : SKey) : List Obj × Stack :=
  match k with
  | .kstr s => popBucket st (.kstr s)
  | .kcls c => popAllCls st c

theorem popBucket_eq (k : SKey) :
    ∀ st : Stack, keysNodup st →
      popBucket st k = (bucketValues st k, st.filter (fun e => !(e.1 == k))) := by
  intro st
  induction st with
  | nil => intro _; rfl
  | cons e rest ih =>
    intro h
    have hnd : keysNodup rest := (List.nodup_cons.1 h).2
    have hnm : e.1 ∉ rest.map Prod.fst := (List.nodup_cons.1 h).1
    by_cases hek : e.1 = k
    · subst hek
      have hrest : rest.filter (fun x => !(x.1 == e.1)) = rest := by
        refine List.filter_eq_self.2 ?_
        intro x hx
        have : x.1 ≠ e.1 := by
          intro hc
          exact hnm (hc ▸ List.mem_map_of_mem Prod.fst hx)
        simp [this]
      simp [popBucket, bucketValues, List.find?_cons, hrest]
    · have hek' : (e.1 == k) = false := by simp [hek]
      simp only [popBucket, hek', Bool.false_eq_true, if_false, ih hnd,
        bucketValues, List.find?_cons, List.filter_cons, Bool.not_false,
        if_true]

theorem popAllCls_eq (c : SDMXClass) :
    ∀ st : Stack,
      popAllCls st c
        = (((st.filter (fun e => keyMatches c e.1)).map Prod.snd).flatten,
           st.filter (fun e => !(keyMatches c e.1))) := by
  intro st
  induction st with
  | nil => rfl
  | cons e rest ih =>
    by_cases hm : keyMatches c e.1
    · simp [popAllCls, ih, hm, List.filter_cons]
    · simp [popAllCls, ih, hm, List.filter_cons, Bool.not_eq_true', hm]

/-- C7: `pop_all(s)` with a string key removes and returns exactly the
values of bucket `s` in insertion order and leaves every other bucket
unchanged; `pop_all(C)` with a class `C` removes every bucket whose key is a
subclass of `C`, returns the concatenation of their values in
bucket-registration order, and leaves string-keyed buckets and non-subclass
class buckets unchanged. -/
theorem claim_C7_pop_all (st : Stack) (h : keysNodup st) :
    (∀ s : String,
      popAll st (.kstr s)
        = (bucketValues st (.kstr s), st.filter (fun e => !(e.1 == SKey.kstr s)))) ∧
    (∀ c : SDMXClass,
      popAll st (.kcls c)
        = (((st.filter (fun e => keyMatches c e.1)).map Prod.snd).flatten,
           st.filter (fun e => !(keyMatches c e.1)))) := by
  constructor
  · intro s
    exact popBucket_eq (.kstr s) st h
  · intro c
    exact popAllCls_eq c st

theorem claim_C7_pop_all_witness :
    (∀ s : String,
      popAll [(SKey.kcls .Codelist, [⟨0, .Codelist, none, none, false⟩]),
              (SKey.kstr "Name", [⟨1, .Code, none, none, false⟩]),
              (SKey.kcls .Code, [⟨2, .Code, none, none, false⟩])] (.kstr s)
        = (bucketValues [(SKey.kcls .Codelist, [⟨0, .Codelist, none, none, false⟩]),
              (SKey.kstr "Name", [⟨1, .Code, none, none, false⟩]),
              (SKey.kcls .Code, [⟨2, .Code, none, none, false⟩])] (.kstr s),
           List.filter (fun e => !(e.1 == SKey.kstr s))
             [(SKey.kcls .Codelist, [⟨0, .Codelist, none, none, false⟩]),
              (SKey.kstr "Name", [⟨1, .Code, none, none, false⟩]),
              (SKey.kcls .Code, [⟨2, .Code, none, none, false⟩])])) ∧
    (∀ c : SDMXClass,
      popAll [(SKey.kcls .Codelist, [⟨0, .Codelist, none, none, false⟩]),
              (SKey.kstr "Name", [⟨1, .Code, none, none, false⟩]),
              (SKey.kcls .Code, [⟨2, .Code, none, none, false⟩])] (.kcls c)
        = ((List.map Prod.snd (List.filter (fun e => keyMatches c e.1)
              [(SKey.kcls .Codelist, [⟨0, .Codelist, none, none, false⟩]),
               (SKey.kstr "Name", [⟨1, .Code, none, none, false⟩]),
               (SKey.kcls .Code, [⟨2, .Code, none, none, false⟩])])).flatten,
           List.filter (fun e => !(keyMatches c e.1))
             [(SKey.kcls .Codelist, [⟨0, .Codelist, none, none, false⟩]),
              (SKey.kstr "Name", [⟨1, .Code, none, none, false⟩]),
              (SKey.kcls .Code, [⟨2, .Code, none, none, false⟩])])) :=
  claim_C7_pop_all
    [(SKey.kcls .Codelist, [⟨0, .Codelist, none, none, false⟩]),
     (SKey.kstr "Name", [⟨1, .Code, none, none, false⟩]),
     (SKey.kcls .Code, [⟨2, .Code, none, none, false⟩])] (by decide)


/-! ## stash / unstash (sdmxml.py lines 265-273)

In the Python code the pending stashes live in the `"_stash"` bucket of the
stack itself, holding dicts rather than objects; here they are modelled as a
separate component of the state, a list used as a LIFO stack. -/

/-- Insertion into a Python dict: an existing key keeps its position and its
value is overwritten; a new key is appended. -/
def dictInsert : List (String × List Obj) → String → List Obj →
    List (String × List Obj)
  | [], k, v => [(k, v)]
  | e :: rest, k, v =>
    if e.1 == k then (k, v) :: rest else e :: dictInsert rest k v

/-- `self.stack[key].extend(values)` on a `defaultdict(list)`: append to the
bucket, creating an (empty-extended) bucket at the end when absent. -/
def extendBucket : Stack → String → List Obj → Stack
  | [], k, vs => [(SKey.kstr k, vs)]
  | e :: rest, k, vs =>
    if e.1 == SKey.kstr k then (e.1, e.2 ++ vs) :: rest
    else e :: extendBucket rest k vs

/-- One step of the dict comprehension in `stash`:
`\{k: self.pop_all(k, strict=True) for k in keys\}`. -/
def stashStep (acc : List (String × List Obj) × Stack) (k : String) :
    List (String × List Obj) × Stack :=
  let pr := popBucket acc.2 (.kstr k)
  (dictInsert acc.1 k pr.1, pr.2)

/-- `stash(*keys)` (sdmxml.py lines 265-266): build the dict of popped
buckets and push it onto the stash stack. -/
def stashOp (st : Stack) (sh : List (List (String × List Obj)))
    (keys : List String) : Stack × List (List (String × List Obj)) :=
  ((keys.foldl stashStep ([], st)).2, sh ++ [(keys.foldl stashStep ([], st)).1])

/-- One step of `unstash`: `self.stack[key].extend(values)`. -/
def unstashStep (acc : Stack) (e : String × List Obj) : Stack :=
  extendBucket acc e.1 e.2

/-- `unstash()` (sdmxml.py lines 268-273): pop the most recent stash dict and
extend each named bucket with its saved values; an empty stash stack is a
no-op (the `IndexError` is caught and passed). -/
def unstashOp (st : Stack) (sh : List (List (String × List Obj))) :
    Stack × List (List (String × List Obj)) :=
  match sh.getLast? with
  | none => (st, sh)
  | some d => (d.foldl unstashStep st, sh.dropLast)

theorem bucketValues_cons (e : SKey × List Obj) (st : Stack) (k : SKey) :
    bucketValues (e :: st) k
      = if (e.1 == k) = true then e.2 else bucketValues st k := by
  by_cases h : (e.1 == k) = true
  · simp [bucketValues, List.find?, h]
  · simp [bucketValues, List.find?, h]

theorem bucketValues_filterKey (q : SKey → Bool) (k : SKey) :
    ∀ st : Stack,
      bucketValues (st.filter (fun e => q e.1)) k
        = if q k then bucketValues st k else [] := by
  intro st
  induction st with
  | nil => by_cases h : q k <;> simp [bucketValues, h]
  | cons e rest ih =>
    by_cases hq : q e.1
    · rw [List.filter_cons_of_pos (by simpa using hq), bucketValues_cons,
        bucketValues_cons]
      by_cases hek : (e.1 == k) = true
      · have : q k = true := (eq_of_beq hek) ▸ hq
        simp [hek, this]
      · simp [hek, ih]
    · rw [List.filter_cons_of_neg (by simpa using hq), ih, bucketValues_cons]
      by_cases hek : (e.1 == k) = true
      · have : q k = false := by
          have := eq_of_beq hek
          subst this
          simpa using hq
        simp [this, hek]
      · simp [hek]

theorem keysNodup_filter (p : SKey × List Obj → Bool) {st : Stack}
    (h : keysNodup st) : keysNodup (st.filter p) :=
  List.Nodup.sublist ((st.filter_sublist).map Prod.fst) h

theorem dictInsert_of_not_mem (k : String) (v : List Obj) :
    ∀ d : List (String × List Obj), (∀ e ∈ d, e.1 ≠ k) →
      dictInsert d k v = d ++ [(k, v)] := by
  intro d
  induction d with
  | nil => intro _; rfl
  | cons e rest ih =>
    intro h
    have he : e.1 ≠ k := h e (by simp)
    simp only [dictInsert, beq_iff_eq, if_neg he, List.cons_append,
      List.cons.injEq, true_and]
    exact ih (fun x hx => h x (by simp [hx]))

theorem bucketValues_extendBucket (k : String) (vs : List Obj) (k' : SKey) :
    ∀ st : Stack,
      bucketValues (extendBucket st k vs) k'
        = if k' = SKey.kstr k then bucketValues st k' ++ vs
          else bucketValues st k' := by
  intro st
  induction st with
  | nil =>
    by_cases h : k' = SKey.kstr k
    · subst h; simp [extendBucket, bucketValues]
    · have : (SKey.kstr k == k') = false := by
        simp only [beq_eq_false_iff_ne, ne_eq]
        exact fun hc => h hc.symm
      simp [extendBucket, bucketValues, List.find?, this, h]
  | cons e rest ih =>
    by_cases h1 : (e.1 == SKey.kstr k) = true
    · rw [extendBucket, if_pos h1, bucketValues_cons, bucketValues_cons]
      by_cases h2 : (e.1 == k') = true
      · have hk : k' = SKey.kstr k := by
          rw [← eq_of_beq h2, eq_of_beq h1]
        have he : e.1 = SKey.kstr k := eq_of_beq h1
        simp [h2, hk, he]
      · have hk : ¬ (k' = SKey.kstr k) := by
          intro hc
          exact h2 (by rw [hc]; exact h1)
        simp [h2, hk]
    · rw [extendBucket, if_neg (by simpa using h1), bucketValues_cons,
        bucketValues_cons, ih]
      by_cases h2 : (e.1 == k') = true
      · have hk : ¬ (k' = SKey.kstr k) := by
          intro hc
          rw [eq_of_beq h2, hc] at h1
          simp at h1
        simp [h2, hk]
      · simp [h2]

theorem bucketValues_unstashFold (entries : List (String × List Obj)) :
    ∀ (s : Stack) (k : SKey),
      bucketValues (entries.foldl unstashStep s) k
        = bucketValues s k
          ++ ((entries.filter
                (fun e => SKey.kstr e.1 == k)).map Prod.snd).flatten := by
  induction entries with
  | nil => simp
  | cons e es ih =>
    intro s k
    rw [List.foldl_cons, ih]
    show bucketValues (extendBucket s e.1 e.2) k ++ _ = _
    rw [bucketValues_extendBucket]
    by_cases h : k = SKey.kstr e.1
    · rw [if_pos h, List.filter_cons_of_pos (by simp [h]), List.map_cons,
        List.flatten_cons, List.append_assoc]
    · rw [if_neg h,
        List.filter_cons_of_neg (by simpa using fun hc => h (eq_of_beq hc).symm)]


theorem filter_stashDict_not_mem (g : String → List Obj) (k : SKey) :
    ∀ keys : List String, (∀ s ∈ keys, SKey.kstr s ≠ k) →
      (keys.map (fun s => (s, g s))).filter (fun e => SKey.kstr e.1 == k)
        = [] := by
  intro keys
  induction keys with
  | nil => intro _; rfl
  | cons a as ih =>
    intro h
    rw [List.map_cons, List.filter_cons_of_neg (by simpa using h a (by simp))]
    exact ih (fun s hs => h s (by simp [hs]))

theorem filter_stashDict_mem (g : String → List Obj) (k0 : String) :
    ∀ keys : List String, keys.Nodup → k0 ∈ keys →
      (keys.map (fun s => (s, g s))).filter
          (fun e => SKey.kstr e.1 == SKey.kstr k0) = [(k0, g k0)] := by
  intro keys
  induction keys with
  | nil => intro _ h; simp at h
  | cons a as ih =>
    intro hnd hmem
    by_cases hak : a = k0
    · subst hak
      rw [List.map_cons, List.filter_cons_of_pos (by simp)]
      have hnot : ∀ s ∈ as, SKey.kstr s ≠ SKey.kstr a := by
        intro s hs hc
        have : s = a := by injection hc
        exact (List.nodup_cons.1 hnd).1 (this ▸ hs)
      rw [filter_stashDict_not_mem g (SKey.kstr a) as hnot]
    · rw [List.map_cons, List.filter_cons_of_neg (by simp [hak])]
      refine ih (List.nodup_cons.1 hnd).2 ?_
      rcases List.mem_cons.1 hmem with h | h
      · exact absurd h.symm hak
      · exact h

theorem stashFold_spec :
    ∀ (keys : List String) (d0 : List (String × List Obj)) (st : Stack),
      keysNodup st → keys.Nodup → (∀ k ∈ keys, ∀ e ∈ d0, e.1 ≠ k) →
      keys.foldl stashStep (d0, st)
        = (d0 ++ keys.map (fun k => (k, bucketValues st (.kstr k))),
           st.filter (fun e => !(keys.any (fun k => e.1 == SKey.kstr k)))) := by
  intro keys
  induction keys with
  | nil =>
    intro d0 st _ _ _
    simp [List.filter_true]
  | cons k ks ih =>
    intro d0 st hst hnd hd
    have h1 : stashStep (d0, st) k
        = (dictInsert d0 k (bucketValues st (SKey.kstr k)),
           st.filter (fun e => !(e.1 == SKey.kstr k))) := by
      rw [stashStep, popBucket_eq (SKey.kstr k) st hst]
    rw [List.foldl_cons, h1,
      dictInsert_of_not_mem k _ d0 (fun e he => hd k (by simp) e he)]
    rw [ih (d0 ++ [(k, bucketValues st (SKey.kstr k))])
      (st.filter (fun e => !(e.1 == SKey.kstr k)))
      (keysNodup_filter _ hst) (List.nodup_cons.1 hnd).2 ?_]
    · have hmap : ks.map (fun k2 =>
          (k2, bucketValues (st.filter (fun e => !(e.1 == SKey.kstr k)))
            (SKey.kstr k2)))
          = ks.map (fun k2 => (k2, bucketValues st (SKey.kstr k2))) := by
        apply List.map_congr_left
        intro k2 hk2
        have hne : k2 ≠ k :=
          fun hc => (List.nodup_cons.1 hnd).1 (hc ▸ hk2)
        rw [bucketValues_filterKey (fun key => !(key == SKey.kstr k))
          (SKey.kstr k2) st, if_pos (by simp [hne])]
      have hfil : (st.filter (fun e => !(e.1 == SKey.kstr k))).filter
            (fun e => !(ks.any (fun k0 => e.1 == SKey.kstr k0)))
          = st.filter
              (fun e => !((k :: ks).any (fun k0 => e.1 == SKey.kstr k0))) := by
        rw [List.filter_filter]
        apply List.filter_congr
        intro e _
        simp only [List.any_cons, Bool.not_or]
        rw [Bool.and_comm]
      rw [hmap, hfil]
      simp
    · intro k2 hk2 e he
      rcases List.mem_append.1 he with h | h
      · exact hd k2 (by simp [hk2]) e h
      · have he2 : e = (k, bucketValues st (SKey.kstr k)) := by simpa using h
        subst he2
        intro hc
        have hc2 : k = k2 := hc
        exact (List.nodup_cons.1 hnd).1 (hc2 ▸ hk2)

/-- C8 (amended): for every working-stack state and every tuple of DISTINCT
string keys, calling `stash(keys)` and later `unstash()`, with no
intervening operation on those buckets, restores each named bucket to
exactly its contents at the moment of the stash, in the same order, and
leaves every other bucket's contents unchanged; the stash stack itself is
restored, so nested stash/unstash pairs restore in last-in-first-out order. -/
theorem claim_C8_stash_unstash (st : Stack)
    (sh : List (List (String × List Obj))) (keys : List String)
    (hst : keysNodup st) (hkeys : keys.Nodup) :
    (unstashOp (stashOp st sh keys).1 (stashOp st sh keys).2).2 = sh ∧
    ∀ k : SKey,
      bucketValues (unstashOp (stashOp st sh keys).1 (stashOp st sh keys).2).1 k
        = bucketValues st k := by
  have hfold := stashFold_spec keys [] st hst hkeys (by intro a _ e he; simp at he)
  have hop : stashOp st sh keys
      = (st.filter (fun e => !(keys.any (fun k => e.1 == SKey.kstr k))),
         sh ++ [keys.map (fun k => (k, bucketValues st (.kstr k)))]) := by
    rw [stashOp, hfold]
    simp
  rw [hop]
  have hlast : (sh ++ [keys.map (fun k =>
      (k, bucketValues st (.kstr k)))]).getLast?
      = some (keys.map (fun k => (k, bucketValues st (.kstr k)))) :=
    List.getLast?_concat _
  constructor
  · show (unstashOp _ _).2 = sh
    rw [unstashOp, hlast]
    exact List.dropLast_concat
  · intro k
    show bucketValues (unstashOp _ _).1 k = bucketValues st k
    rw [unstashOp, hlast]
    show bucketValues (List.foldl unstashStep _ _) k = bucketValues st k
    rw [bucketValues_unstashFold]
    by_cases hk : ∃ k0, k0 ∈ keys ∧ k = SKey.kstr k0
    · obtain ⟨k0, hk0, rfl⟩ := hk
      rw [bucketValues_filterKey
        (fun key => !(keys.any (fun k1 => key == SKey.kstr k1)))
        (SKey.kstr k0) st, if_neg (by simp [hk0]),
        filter_stashDict_mem (fun k1 => bucketValues st (.kstr k1)) k0 keys
          hkeys hk0]
      simp
    · have h1 : bucketValues (st.filter
          (fun e => !(keys.any (fun k1 => e.1 == SKey.kstr k1)))) k
          = bucketValues st k := by
        rw [bucketValues_filterKey
          (fun key => !(keys.any (fun k1 => key == SKey.kstr k1))) k st]
        rw [if_pos ?_]
        simp only [Bool.not_eq_true', List.any_eq_false]
        intro k1 hk1
        simp only [beq_iff_eq]
        exact fun hc => hk ⟨k1, hk1, hc⟩
      have h2 : (keys.map (fun k1 =>
          (k1, bucketValues st (.kstr k1)))).filter
            (fun e => SKey.kstr e.1 == k) = [] := by
        apply filter_stashDict_not_mem
        intro s hs hc
        exact hk ⟨s, hs, hc.symm⟩
      rw [h1, h2]
      simp

theorem claim_C8_stash_unstash_witness :
    (unstashOp
        (stashOp [(SKey.kstr "Name", [⟨0, .Code, none, none, false⟩]),
                  (SKey.kstr "ID", [⟨1, .Code, none, none, false⟩])] []
          ["Name"]).1
        (stashOp [(SKey.kstr "Name", [⟨0, .Code, none, none, false⟩]),
                  (SKey.kstr "ID", [⟨1, .Code, none, none, false⟩])] []
          ["Name"]).2).2 = [] ∧
    bucketValues
        (unstashOp
          (stashOp [(SKey.kstr "Name", [⟨0, .Code, none, none, false⟩]),
                    (SKey.kstr "ID", [⟨1, .Code, none, none, false⟩])] []
            ["Name"]).1
          (stashOp [(SKey.kstr "Name", [⟨0, .Code, none, none, false⟩]),
                    (SKey.kstr "ID", [⟨1, .Code, none, none, false⟩])] []
            ["Name"]).2).1 (SKey.kstr "Name")
      = bucketValues [(SKey.kstr "Name", [⟨0, .Code, none, none, false⟩]),
                      (SKey.kstr "ID", [⟨1, .Code, none, none, false⟩])]
          (SKey.kstr "Name") :=
  ⟨(claim_C8_stash_unstash
      [(SKey.kstr "Name", [⟨0, .Code, none, none, false⟩]),
       (SKey.kstr "ID", [⟨1, .Code, none, none, false⟩])] [] ["Name"]
      (by decide) (by decide)).1,
   (claim_C8_stash_unstash
      [(SKey.kstr "Name", [⟨0, .Code, none, none, false⟩]),
       (SKey.kstr "ID", [⟨1, .Code, none, none, false⟩])] [] ["Name"]
      (by decide) (by decide)).2 (SKey.kstr "Name")⟩

/-- C8 counterexample: the claim quantifies over EVERY tuple of string keys,
including tuples with a repeated key.  With the stack holding one object in
bucket "Name", `stash("Name", "Name")` pops the bucket twice; the second pop
returns `[]` and overwrites the dict entry, so the saved value is lost and
`unstash()` leaves bucket "Name" empty instead of restoring its object. -/
theorem claim_C8_counterexample :
    bucketValues [(SKey.kstr "Name", [⟨0, .Code, none, none, false⟩])]
        (SKey.kstr "Name") = [⟨0, .Code, none, none, false⟩] ∧
    (unstashOp
        (stashOp [(SKey.kstr "Name", [⟨0, .Code, none, none, false⟩])] []
          ["Name", "Name"]).1
        (stashOp [(SKey.kstr "Name", [⟨0, .Code, none, none, false⟩])] []
          ["Name", "Name"]).2).1 = [(SKey.kstr "Name", [])] ∧
    bucketValues
        (unstashOp
          (stashOp [(SKey.kstr "Name", [⟨0, .Code, none, none, false⟩])] []
            ["Name", "Name"]).1
          (stashOp [(SKey.kstr "Name", [⟨0, .Code, none, none, false⟩])] []
            ["Name", "Name"]).2).1 (SKey.kstr "Name")
      ≠ bucketValues [(SKey.kstr "Name", [⟨0, .Code, none, none, false⟩])]
          (SKey.kstr "Name") := by
  decide


/-! ## get (sdmxml.py lines 275-292) -/

/-- The `results` collected by `get`: a string key (or `strict=True`) reads
exactly that bucket (`self.stack.get(key, [])`); a class key chains the
values of every subclass-matching bucket in registration order. -/
def resultsFor (st : Stack) (key : SKey) (strict : Bool) : List Obj :=
  match key with
  | .kstr _ => bucketValues st key
  | .kcls c =>
    if strict then bucketValues st key
    else ((st.filter (fun e => keyMatches c e.1)).map Prod.snd).flatten

/-- Python truthiness of the `id` argument (`if id:`): both `None` and the
empty string are falsy. -/
def truthyId : Option String → Bool
  | none => false
  | some s => !(s == "")

/-- `get` (sdmxml.py lines 275-292): with a truthy id, the first object in
the matched results whose `.id` equals it (falling through to `None`
otherwise); with a falsy id, the single value if exactly one exists, else
`None`. -/
def getStack (st : Stack) (key : SKey) (idArg : Option String)
    (strict : Bool) : Option Obj :=
  let results := resultsFor st key strict
  if truthyId idArg then results.find? (fun o => o.id == idArg)
  else if results.length == 1 then results.head? else none

theorem find?_first_spec {α : Type} (p : α → Bool) :
    ∀ (l : List α) (a : α), l.find? p = some a →
      p a = true ∧ ∃ l1 l2, l = l1 ++ a :: l2 ∧ ∀ x ∈ l1, p x = false := by
  intro l
  induction l with
  | nil => intro a h; simp [List.find?] at h
  | cons x xs ih =>
    intro a h
    by_cases hx : p x = true
    · simp only [List.find?, hx, Option.some.injEq] at h
      subst h
      exact ⟨hx, [], xs, rfl, by simp⟩
    · have hx2 : p x = false := by simpa using hx
      simp only [List.find?, hx2] at h
      obtain ⟨hpa, l1, l2, heq, hl1⟩ := ih a h
      refine ⟨hpa, x :: l1, l2, by rw [heq, List.cons_append], ?_⟩
      intro y hy
      rcases List.mem_cons.1 hy with h2 | h2
      · subst h2; exact hx2
      · exact hl1 y h2

/-- C10 (amended): for every working-stack state, `get(key, id)` called with
a NON-EMPTY id returns the first object in the matched bucket(s) whose id
attribute equals the given id, and returns null — it does not raise — when
no object in the matched bucket(s) has that id, including when the bucket
does not exist at all (the results are then empty). -/
theorem claim_C10_get_with_id (st : Stack) (key : SKey) (strict : Bool)
    (i : String) (hi : i ≠ "") :
    getStack st key (some i) strict
        = (resultsFor st key strict).find? (fun o => o.id == some i) ∧
    ((∀ o ∈ resultsFor st key strict, o.id ≠ some i) →
      getStack st key (some i) strict = none) ∧
    (∀ o, getStack st key (some i) strict = some o →
      o.id = some i ∧ ∃ l1 l2, resultsFor st key strict = l1 ++ o :: l2 ∧
        ∀ o2 ∈ l1, o2.id ≠ some i) := by
  have htruthy : truthyId (some i) = true := by
    simp [truthyId]
    intro hc
    exact absurd hc hi
  have h0 : getStack st key (some i) strict
      = (resultsFor st key strict).find? (fun o => o.id == some i) := by
    simp [getStack, htruthy]
  refine ⟨h0, ?_, ?_⟩
  · intro hall
    rw [h0, List.find?_eq_none]
    intro o ho
    simp only [beq_iff_eq]
    exact hall o ho
  · intro o hgo
    rw [h0] at hgo
    obtain ⟨hp, l1, l2, heq, hl1⟩ := find?_first_spec _ _ o hgo
    refine ⟨eq_of_beq hp, l1, l2, heq, ?_⟩
    intro o2 ho2 hc
    have hfalse := hl1 o2 ho2
    rw [hc] at hfalse
    simp at hfalse

theorem claim_C10_get_with_id_witness :
    getStack [(SKey.kstr "X", [⟨0, .Code, some "a", none, false⟩,
                               ⟨1, .Code, some "b", none, false⟩])]
        (SKey.kstr "X") (some "b") false
      = (resultsFor [(SKey.kstr "X", [⟨0, .Code, some "a", none, false⟩,
                                      ⟨1, .Code, some "b", none, false⟩])]
          (SKey.kstr "X") false).find? (fun o => o.id == some "b") :=
  (claim_C10_get_with_id
    [(SKey.kstr "X", [⟨0, .Code, some "a", none, false⟩,
                      ⟨1, .Code, some "b", none, false⟩])]
    (SKey.kstr "X") false "b" (by decide)).1

/-- C10 counterexample: the empty string is a non-null id, but `if id:` is
false for it, so `get` falls into the no-id branch: on a bucket holding a
single object whose id is "x", `get(key, "")` returns that object even
though no object has id "" — the claim says it should return null. -/
theorem claim_C10_counterexample :
    getStack [(SKey.kstr "X", [⟨0, .Code, some "x", none, false⟩])]
        (SKey.kstr "X") (some "") false
      = some ⟨0, .Code, some "x", none, false⟩ ∧
    (some "x" : Option String) ≠ some "" := by
  decide

/-! ## The finalization check of `read_message` (sdmxml.py lines 229-238) -/

/-- The reader state relevant to finalization: the working stack and the
`ignore` set of object identities. -/
structure ReaderState where
  stack : Stack
  ignore : List Nat
  deriving DecidableEq, Repr

/-- The `uncollected` counter: starts at -1 and adds, per bucket, the number
of objects whose identity is not in `ignore`. -/
def countUncollected (st : ReaderState) : Int :=
  st.stack.foldl
    (fun acc e =>
      acc + ((e.2.filter (fun o => !(st.ignore.contains o.oid))).length : Int))
    (-1)

/-- The number of non-ignored objects on the working stack. -/
def nonIgnoredCount (st : ReaderState) : Nat :=
  (st.stack.map
    (fun e => (e.2.filter (fun o => !(st.ignore.contains o.oid))).length)).sum

inductive ReadErr where
  | uncollected : Int → ReadErr
  deriving DecidableEq, Repr

/-- The tail of `read_message` (sdmxml.py lines 229-238): compute
`uncollected`; raise `RuntimeError` when it is positive; otherwise return
`self.get(message.Message)`. -/
def finalizeRead (st : ReaderState) : Except ReadErr (Option Obj) :=
  let u := countUncollected st
  if u > 0 then .error (.uncollected u)
  else .ok (getStack st.stack (.kcls .Message) none false)

theorem countUncollected_eq (st : ReaderState) :
    countUncollected st = (nonIgnoredCount st : Int) - 1 := by
  suffices h : ∀ (l : Stack) (a : Int),
      l.foldl (fun acc e =>
        acc + ((e.2.filter (fun o => !(st.ignore.contains o.oid))).length
          : Int)) a
      = a + (((l.map (fun e =>
          (e.2.filter (fun o => !(st.ignore.contains o.oid))).length)
            : List Nat).sum : Int)) by
    rw [countUncollected, h st.stack (-1), nonIgnoredCount]
    omega
  intro l
  induction l with
  | nil => intro a; simp
  | cons x xs ih =>
    intro a
    rw [List.foldl_cons, ih, List.map_cons, List.sum_cons]
    push_cast
    ring

/-- C1 (amended): after the XML stream is fully consumed, `read_message`
counts the working-stack entries whose object identity is not in the ignore
set and fails with a fatal `RuntimeError` exactly when that count EXCEEDS
one (the raised error carries count − 1); otherwise — count zero or one — it
returns the result of `get(Message)`: the unique object held in
Message-class buckets when there is exactly one, and null otherwise. -/
theorem claim_C1_finalize (st : ReaderState) :
    finalizeRead st
      = if nonIgnoredCount st > 1
        then .error (.uncollected ((nonIgnoredCount st : Int) - 1))
        else .ok (getStack st.stack (.kcls .Message) none false) := by
  simp only [finalizeRead, countUncollected_eq]
  by_cases h : nonIgnoredCount st > 1
  · rw [if_pos (by omega), if_pos h]
  · rw [if_neg (by omega), if_neg h]

/-- C1 counterexample: the claim says any count other than one is fatal, but
on a fully-drained stack (reachable, e.g., from a document whose elements
are all explicit no-ops, with no caller-supplied DSD) the non-ignored count
is 0 — not 1 — and `read_message` does not fail: `uncollected` is −1, the
`> 0` test is false, and `get(Message)` returns null. -/
theorem claim_C1_counterexample :
    nonIgnoredCount ⟨[], []⟩ = 0 ∧
      finalizeRead ⟨[], []⟩ = .ok none ∧
      (0 : Nat) ≠ 1 := by
  refine ⟨rfl, rfl, by decide⟩

/-! ## The dispatch step (sdmxml.py lines 204-226) -/

/-- An XML stream event kind; `end_` models the Python event string "end". -/
inductive Event where
  | start
  | end_
  deriving DecidableEq, Repr

/-- The dispatch registry `PARSE`: a finite map from (qualified tag, event)
to either an explicit no-op (`none`, the SKIP entries) or a handler.  The
handler representation `H` is abstract. -/
abbrev Registry (H : Type) := List ((String × Event) × Option H)

/-- `PARSE[element.tag, event]`: `none` models the `KeyError` of a missing
entry. -/
def lookupReg {H : Type} (reg : Registry H) (k : String × Event) :
    Option (Option H) :=
  (reg.find? (fun e => e.1 == k)).map Prod.snd

/-- The causes wrapped by the parse error: `NotImplementedError(tag, event)`
for an unregistered pair, or any exception escaping a handler. -/
inductive PCause where
  | notImplemented (tag : String) (ev : Event)
  | handlerFailure (msg : String)
  deriving DecidableEq, Repr

/-- `XMLParseError`: the single parse-error wrapper, chained to its cause. -/
inductive PErr where
  | xmlParseError (cause : PCause)
  deriving DecidableEq, Repr

/-- One iteration of the dispatch loop of `read_message` (sdmxml.py lines
205-222): look up `PARSE[element.tag, event]` — a missing entry raises
`NotImplementedError(tag, event)`, re-raised by the surrounding handler as
`XMLParseError` chained to it; a `None` entry is an explicit no-op (calling
`None` raises `TypeWrror`-like failure that is caught and skipped);
otherwise the handler runs (abstractly, via `run`) and a non-null result is
pushed keyed by its runtime class. -/
def dispatchStep {H : Type} (reg : Registry H)
    (run : H → ReaderState → Except PCause (ReaderState × Option Obj))
    (st : ReaderState) (tag : String) (ev : Event) : Except PErr ReaderState :=
  match lookupReg reg (tag, ev) with
  | none => .error (.xmlParseError (.notImplemented tag ev))
  | some none => .ok st
  | some (some h) =>
    match run h st with
    | .error c => .error (.xmlParseError c)
    | .ok (st2, none) => .ok st2
    | .ok (st2, some v) => .ok ⟨pushStack st2.stack (.kcls v.cls) v, st2.ignore⟩

/-- C2: for every (qualified tag, event) pair that has no entry in the
dispatch registry, the dispatch step fails fatally with the single
parse-error wrapper (XMLParseError) chained to NotImplementedError(tag,
event); a pair registered as an explicit no-op is skipped without error,
leaving the state unchanged. -/
theorem claim_C2_unknown_pair_fatal {H : Type} (reg : Registry H)
    (run : H → ReaderState → Except PCause (ReaderState × Option Obj))
    (st : ReaderState) (tag : String) (ev : Event) :
    (lookupReg reg (tag, ev) = none →
      dispatchStep reg run st tag ev
        = .error (.xmlParseError (.notImplemented tag ev))) ∧
    (lookupReg reg (tag, ev) = some none →
      dispatchStep reg run st tag ev = .ok st) := by
  constructor <;> intro h <;> simp [dispatchStep, h]

theorem claim_C2_unknown_pair_fatal_witness :
    (dispatchStep ([(("str:Codelist", Event.end_), none)] : Registry Unit)
        (fun _ s => .ok (s, none)) ⟨[], []⟩ "str:Unknown" .start
      = .error (.xmlParseError (.notImplemented "str:Unknown" .start))) ∧
    (dispatchStep ([(("str:Codelist", Event.end_), none)] : Registry Unit)
        (fun _ s => .ok (s, none)) ⟨[], []⟩ "str:Codelist" .end_
      = .ok ⟨[], []⟩) :=
  ⟨(claim_C2_unknown_pair_fatal
      ([(("str:Codelist", Event.end_), none)] : Registry Unit)
      (fun _ s => .ok (s, none)) ⟨[], []⟩ "str:Unknown" .start).1 rfl,
   (claim_C2_unknown_pair_fatal
      ([(("str:Codelist", Event.end_), none)] : Registry Unit)
      (fun _ s => .ok (s, none)) ⟨[], []⟩ "str:Codelist" .end_).2 rfl⟩


/-! ## The Reference constructor (sdmxml.py lines 123-189) -/

/-- Modelled from the spec: `model.parent_class` of `sdmx/model.py` (not
among the sources) — the Maintainable parent class of a non-maintainable
child class ("otherwise set cls to the parent-class of child_cls", §4.3;
Items belong to their scheme, components and descriptors to the DSD). -/
def parentClassOf : SDMXClass → Option SDMXClass
  | .Code => some .Codelist
  | .Concept => some .ConceptScheme
  | .Category => some .CategoryScheme
  | .Agency => some .AgencyScheme
  | .DataProvider => some .DataProviderScheme
  | .Dimension => some .DataStructureDefinition
  | .TimeDimension => some .DataStructureDefinition
  | .MeasureDimension => some .DataStructureDefinition
  | .PrimaryMeasure => some .DataStructureDefinition
  | .DataAttribute => some .DataStructureDefinition
  | .GroupDimensionDescriptor => some .DataStructureDefinition
  | .DimensionDescriptor => some .DataStructureDefinition
  | .AttributeDescriptor => some .DataStructureDefinition
  | .MeasureDescriptor => some .DataStructureDefinition
  | .Key => some .DataStructureDefinition
  | _ => none

/-- The first child of a reference-bearing element, as `Reference.__init__`
inspects it: a `<Ref …>` with its attributes and the parent element's
localname, a `<URN>text</URN>`, some other element, or no child at all. -/
inductive RefElem where
  | refChild (idAttr : Option String) (classAttr : Option String)
      (pkgAttr : Option String) (mpId : Option String) (mpVer : Option String)
      (parentTag : Option String)
  | urnChild (text : String)
  | otherChild
  | noChild
  deriving DecidableEq, Repr

/-- The ways `Reference.__init__` can fail: `NotReference` (no first child,
or a first child that is neither `Ref` nor `URN`), or an escaping exception
(`KeyError` on a missing required attribute or unknown class name,
`AttributeError` on a non-matching URN, `TypeError` on `issubclass(None,…)`,
a failing `parent_class` lookup). -/
inductive RefErr where
  | notReference
  | lookupFailure
  deriving DecidableEq, Repr

/-- The stored fields of a constructed `Reference` (sdmxml.py lines
181-186). -/
structure RefRec where
  child_cls : SDMXClass
  child_id : Option String
  cls : SDMXClass
  id : Option String
  version : Option String
  maintainable : Bool
  deriving DecidableEq, Repr

/-- `cls_hint = get_sdmx_class(cls_hint)` when a hint is supplied (line
138-139); an unknown hint name raises. -/
def resolveHint (clsHintName : Option String) :
    Except RefErr (Option SDMXClass) :=
  match clsHintName with
  | none => .ok none
  | some h =>
    match getSdmxClass h with
    | some c => .ok (some c)
    | none => .error .lookupFailure

/-- The non-maintainable `child_id` (lines 177-179): for URN references use
the decoded `item_id`; otherwise keep the `Ref` attribute id. -/
def urnChildId (urng : Option UrnGroups) (cid0 : Option String) :
    Option String :=
  match urng with
  | some g => g.item_id
  | none => cid0

/-- The URN branch of `Reference.__init__` (lines 157-162) applied to the
decoded groups: a failing decode (`None.groupdict()`) or class lookup
escapes as an exception. -/
def urnParts (gOpt : Option UrnGroups) :
    Except RefErr
      (Option SDMXClass × Option String × Option String × Option String
        × Option UrnGroups) :=
  match gOpt with
  | none => .error .lookupFailure
  | some g =>
    match getSdmxClass g.cls with
    | none => .error .lookupFailure
    | some c => .ok (some c, some g.id, some g.id, g.version, some g)

/-- The two branches of `Reference.__init__` (lines 141-164): from a `Ref`
child, `(child_cls?, child_id, id, version, no URN groups)` where
`child_cls` falls back from the class+package attributes to the parent tag
to the hint (each fallback on `KeyError`, lines 147-155); from a `URN`
child, the decoded groups.  Any other first child raises `NotReference`. -/
def refParts (e : RefElem) (hint : Option SDMXClass) :
    Except RefErr
      (Option SDMXClass × Option String × Option String × Option String
        × Option UrnGroups) :=
  match e with
  | .noChild => .error .notReference
  | .otherChild => .error .notReference
  | .refChild idAttr classAttr pkgAttr mpId mpVer parentTag =>
    match idAttr with
    | none => .error .lookupFailure
    | some cid =>
      let fromAttrs : Option SDMXClass :=
        match classAttr, pkgAttr with
        | some ca, some _ => getSdmxClass ca
        | _, _ => none
      let fromParent : Option SDMXClass :=
        match parentTag with
        | some t => getSdmxClass t
        | none => none
      let ccls : Option SDMXClass :=
        match fromAttrs with
        | some c => some c
        | none =>
          match fromParent with
          | some c => some c
          | none => hint
      .ok (ccls, some cid, mpId, mpVer, none)
  | .urnChild text => urnParts (urnMatch text)

/-- The hint override (lines 166-167): `if cls_hint and
issubclass(cls_hint, child_cls): child_cls = cls_hint`. -/
def applyHint (hint : Option SDMXClass) (c0 : SDMXClass) : SDMXClass :=
  match hint with
  | some h => if SDMXClass.isSubclassOf h c0 then h else c0
  | none => c0

/-- `Reference.__init__` (sdmxml.py lines 131-186): assemble the parts, let
a subclass hint override the child class (lines 166-167), decide
maintainability by `issubclass(child_cls, MaintainableArtefact)` (line 169,
raising when `child_cls` is still `None`), and store the fields: a
maintainable target sets `(cls, id) = (child_cls, child_id)`; otherwise
`cls = parent_class(child_cls)` and, for URN references, `child_id` becomes
the decoded `item_id` (lines 171-179). -/
def refInit (e : RefElem) (clsHintName : Option String) :
    Except RefErr RefRec :=
  match resolveHint clsHintName with
  | .error err => .error err
  | .ok hint =>
    match refParts e hint with
    | .error err => .error err
    | .ok (ccls, cid0, id0, ver0, urng) =>
      match ccls with
      | none => .error .lookupFailure
      | some c0 =>
        if SDMXClass.isSubclassOf (applyHint hint c0) .MaintainableArtefact then
          .ok ⟨applyHint hint c0, cid0, applyHint hint c0, cid0, ver0, true⟩
        else
          match parentClassOf (applyHint hint c0) with
          | none => .error .lookupFailure
          | some pc =>
            .ok ⟨applyHint hint c0, urnChildId urng cid0, pc, id0, ver0,
                 false⟩

instance {eps alpha : Type} [DecidableEq eps] [DecidableEq alpha] :
    DecidableEq (Except eps alpha) := fun x y =>
  match x, y with
  | .error a, .error b =>
    if h : a = b then isTrue (by rw [h])
    else isFalse (fun hc => h (by injection hc))
  | .error _, .ok _ => isFalse (fun hc => Except.noConfusion hc)
  | .ok _, .error _ => isFalse (fun hc => Except.noConfusion hc)
  | .ok a, .ok b =>
    if h : a = b then isTrue (by rw [h])
    else isFalse (fun hc => h (by injection hc))

example :
    refInit (.urnChild "urn:sdmx:org.sdmx.infomodel.codelist.Code=AG:CL(1.0).C1")
        none
      = .ok ⟨.Code, some "C1", .Codelist, some "CL", some "1.0", false⟩ := by
  decide

example :
    refInit (.urnChild "urn:sdmx:org.sdmx.infomodel.codelist.Codelist=AG:CL(1.0)")
        none
      = .ok ⟨.Codelist, some "CL", .Codelist, some "CL", some "1.0", true⟩ := by
  decide

example :
    refInit (.refChild (some "DIM") none none none none none) (some "Dimension")
      = .ok ⟨.Dimension, some "DIM", .DataStructureDefinition, none, none,
             false⟩ := by
  decide

/-- C3: for every successfully constructed Reference, if the resolved target
class (`child_cls`, after any hint override) is a subclass of
MaintainableArtefact then `maintainable` is true, `cls` equals `child_cls`
and `id` equals `child_id`; otherwise `maintainable` is false, `cls` equals
the parent class of `child_cls`, and for references built from a `<URN>`
child, `child_id` equals the `item_id` field decoded from the URN. -/
theorem claim_C3_reference_fields (e : RefElem) (hintName : Option String)
    (r : RefRec) (h : refInit e hintName = .ok r) :
    (SDMXClass.isSubclassOf r.child_cls .MaintainableArtefact = true →
      r.maintainable = true ∧ r.cls = r.child_cls ∧ r.id = r.child_id) ∧
    (SDMXClass.isSubclassOf r.child_cls .MaintainableArtefact = false →
      r.maintainable = false ∧ parentClassOf r.child_cls = some r.cls ∧
      ∀ t g, e = .urnChild t → urnMatch t = some g →
        r.child_id = g.item_id) := by
  unfold refInit at h
  split at h
  · exact absurd h (by simp)
  · rename_i hint hhint
    split at h
    · exact absurd h (by simp)
    · rename_i ccls cid0 id0 ver0 urng hparts
      split at h
      · exact absurd h (by simp)
      · rename_i c0
        split at h
        · rename_i hmain
          injection h with h
          subst h
          refine ⟨fun _ => ⟨rfl, rfl, rfl⟩, fun hfalse => ?_⟩
          rw [hmain] at hfalse
          cases hfalse
        · rename_i hmain
          split at h
          · exact absurd h (by simp)
          · rename_i pc hpc
            injection h with h
            subst h
            refine ⟨fun htrue => absurd htrue hmain,
              fun _ => ⟨rfl, hpc, ?_⟩⟩
            intro t g het hg
            subst het
            simp only [refParts] at hparts
            rw [hg] at hparts
            simp only [urnParts] at hparts
            split at hparts
            · exact absurd hparts (by simp)
            · rename_i c2 hc2
              injection hparts with hp
              have h5 : (some g : Option UrnGroups) = urng := by
                have h6 := congrArg (fun q => q.2.2.2.2) hp
                simpa using h6
              show urnChildId urng cid0 = g.item_id
              rw [← h5]
              rfl

theorem claim_C3_reference_fields_witness :
    refInit
        (.urnChild "urn:sdmx:org.sdmx.infomodel.codelist.Code=AG:CL(1.0).C1")
        none
      = .ok ⟨.Code, some "C1", .Codelist, some "CL", some "1.0", false⟩ ∧
    (⟨.Code, some "C1", .Codelist, some "CL", some "1.0", false⟩
        : RefRec).maintainable = false ∧
    parentClassOf .Code = some .Codelist ∧
    (⟨.Code, some "C1", .Codelist, some "CL", some "1.0", false⟩
        : RefRec).child_id
      = (⟨"codelist", "Code", some "AG", "CL", some "1.0", some "C1"⟩
          : UrnGroups).item_id := by
  have h0 : refInit
      (.urnChild "urn:sdmx:org.sdmx.infomodel.codelist.Code=AG:CL(1.0).C1")
      none
      = .ok ⟨.Code, some "C1", .Codelist, some "CL", some "1.0", false⟩ := by
    decide
  have h := (claim_C3_reference_fields
    (.urnChild "urn:sdmx:org.sdmx.infomodel.codelist.Code=AG:CL(1.0).C1")
    none ⟨.Code, some "C1", .Codelist, some "CL", some "1.0", false⟩ h0).2
    (by decide)
  exact ⟨h0, h.1, h.2.1,
    h.2.2 "urn:sdmx:org.sdmx.infomodel.codelist.Code=AG:CL(1.0).C1"
      ⟨"codelist", "Code", some "AG", "CL", some "1.0", some "C1"⟩ rfl
      (by decide)⟩


/-! ## The resolver (`Reader.resolve`, sdmxml.py lines 323-366) -/

/-- The failures `resolve` can raise: the failing `assert` at its top, or a
`KeyError` from `parent[ref.child_id]`. -/
inductive ResErr where
  | assertionError
  | keyError
  deriving DecidableEq, Repr

/-- `self.maintainable(cls, None, id=..., is_external_reference=True)`
(lines 343-345 and 361-363): with `elem=None` every stack-draining and
attribute-reading step of the layered constructors is skipped (§4.4), so the
result is a fresh object of the class with exactly the given keyword
arguments set.  `n` is the fresh Python identity. -/
def mkStub (n : Nat) (c : SDMXClass) (idv : Option String) : Obj :=
  ⟨n, c, idv, none, true⟩

/-- `Reader.resolve(cls, ref)` for a `Reference` argument (sdmxml.py lines
323-366; non-`Reference` arguments are returned unchanged at line 324-325
before this logic runs).  `pget` models `parent[ref.child_id]` —
`ItemScheme.__getitem__` of `sdmx/model.py`, modelled from the spec as an
abstract lookup returning the child or failing; `nextOid` is the identity
given to a freshly created stub.  Steps: assert; direct `get(child_cls,
child_id)`; on a miss, a non-maintainable ref goes through the parent
Maintainable (found or created as an external-reference stub, in which case
the child resolves to null), while a maintainable ref creates, pushes and
returns an external-reference stub. -/
def resolveRef (pget : Obj → String → Option Obj) (nextOid : Nat)
    (cls : SDMXClass) (ref : RefRec) (st : ReaderState) :
    Except ResErr (Option Obj × ReaderState) :=
  if !(SDMXClass.isSubclassOf ref.cls cls
        || SDMXClass.isSubclassOf ref.child_cls cls) then
    .error .assertionError
  else
    match getStack st.stack (.kcls ref.child_cls) ref.child_id false with
    | some r => .ok (some r, st)
    | none =>
      if ref.maintainable then
        .ok (some (mkStub nextOid ref.cls ref.id),
             ⟨pushStack st.stack (.kcls ref.cls) (mkStub nextOid ref.cls ref.id),
              st.ignore⟩)
      else
        let pp : Obj × ReaderState :=
          match getStack st.stack (.kcls ref.cls) ref.id false with
          | some p => (p, st)
          | none =>
            (mkStub nextOid ref.cls ref.id,
             ⟨pushStack st.stack (.kcls ref.cls) (mkStub nextOid ref.cls ref.id),
              st.ignore⟩)
        if pp.1.isExternalReference then .ok (none, pp.2)
        else
          match ref.child_id with
          | none => .error .keyError
          | some cid =>
            match pget pp.1 cid with
            | none => .error .keyError
            | some r => .ok (some r, pp.2)

/-- C4: for every Reference with `maintainable` true whose target
`(child_cls, child_id)` is not found on the working stack, and every class
argument satisfying the assertion at the top of `resolve`, `resolve(cls,
ref)` creates a stub object of class `ref.cls` with id equal to `ref.id`
and `is_external_reference` set to true, pushes that stub onto the working
stack keyed by its class, and returns it; hence the Maintainable it returns
here is marked as an external reference. -/
theorem claim_C4_resolve_stub (pget : Obj → String → Option Obj)
    (nextOid : Nat) (cls : SDMXClass) (ref : RefRec) (st : ReaderState)
    (hassert : (SDMXClass.isSubclassOf ref.cls cls
        || SDMXClass.isSubclassOf ref.child_cls cls) = true)
    (hm : ref.maintainable = true)
    (hmiss : getStack st.stack (.kcls ref.child_cls) ref.child_id false
      = none) :
    resolveRef pget nextOid cls ref st
        = .ok (some (mkStub nextOid ref.cls ref.id),
               ⟨pushStack st.stack (.kcls ref.cls)
                  (mkStub nextOid ref.cls ref.id), st.ignore⟩) ∧
      (mkStub nextOid ref.cls ref.id).cls = ref.cls ∧
      (mkStub nextOid ref.cls ref.id).id = ref.id ∧
      (mkStub nextOid ref.cls ref.id).isExternalReference = true := by
  refine ⟨?_, rfl, rfl, rfl⟩
  rw [resolveRef, hassert, hmiss, hm]
  rfl

theorem claim_C4_resolve_stub_witness :
    resolveRef (fun _ _ => none) 7 .MaintainableArtefact
        ⟨.Codelist, some "CL", .Codelist, some "CL", none, true⟩ ⟨[], []⟩
      = .ok (some (mkStub 7 .Codelist (some "CL")),
             ⟨pushStack [] (.kcls .Codelist) (mkStub 7 .Codelist (some "CL")),
              []⟩) :=
  (claim_C4_resolve_stub (fun _ _ => none) 7 .MaintainableArtefact
    ⟨.Codelist, some "CL", .Codelist, some "CL", none, true⟩ ⟨[], []⟩
    (by decide) rfl rfl).1

end SdmxSpec
